import Mathlib

/-!
Verification development for the galapagOS launcher / component showroom.

The definitions below shallowly embed the JavaScript sources:
  * `src/public/js/home.js` — status monitor (`ping`, `startAppPolling`),
    showroom wiring (`initShowroom`), view toggle;
  * `src/server.js` — the Express route `GET /health`.
Modules imported by `home.js` but not present in the repository snapshot
(`status.js`, `components/panel.js`, `components/card.js`, the pointer
Interaction Core) are modelled from the design spec where a claim needs
them; each such definition's doc comment says so explicitly.
-/

namespace GalapagOS

/-! ## Status monitor: `ping` (home.js lines 26–34)

JavaScript source:
```
async function ping(url) \x7b
  try \x7b
    const base = (url || '').replace(/\/$/, '');
    const res = await fetch(base + '/health', \x7b method: 'GET' \x7d);
    return res.ok;
  \x7d catch (_) \x7b
    return false;
  \x7d
\x7d
```
-/

/-- A JavaScript value passed as the `url` argument: a string, `null`
or `undefined`. -/
inductive JSUrl
  | null
  | undefined
  | str (s : String)
deriving DecidableEq

/-- The JavaScript expression `url || ''`: falsy arguments (`null`,
`undefined`, the empty string) yield `''`; any other string is returned
unchanged. -/
def urlOrEmpty : JSUrl → String
  | .null => ""
  | .undefined => ""
  | .str s => if s = "" then "" else s

/-- The JavaScript expression `s.replace(/\/$/, '')`: the (non-global)
regex matches a single `'/'` at the end of the string, so one trailing
slash is removed when present. -/
def jsReplaceTrailingSlash (s : String) : String :=
  if s.data.getLast? = some '/' then ⟨s.data.dropLast⟩ else s

/-- The URL actually passed to `fetch` by `ping`:
`(url || '').replace(/\/$/, '') + '/health'`. -/
def requestUrl (url : JSUrl) : String :=
  jsReplaceTrailingSlash (urlOrEmpty url) ++ "/health"

/-- Outcome of the `fetch` call: either an HTTP response with a status
code, or a network failure / thrown exception (the `catch` path). -/
inductive FetchOutcome
  | response (status : Nat)
  | failure
deriving DecidableEq

/-- `ping`, embedded over a network oracle mapping the fetched URL to an
outcome. `res.ok` is true exactly when the status lies in 200–299; the
`catch` branch maps any failure to `false`. The Lean function is total,
mirroring that `ping` always resolves to a boolean and never rejects. -/
def ping (network : String → FetchOutcome) (url : JSUrl) : Bool :=
  match network (requestUrl url) with
  | .response st => decide (200 ≤ st ∧ st ≤ 299)
  | .failure => false

/-! ## Status monitor: `startAppPolling` (home.js lines 36–48) -/

/-- One entry of the `appConfigs` array in home.js. -/
structure AppConfig where
  app : String
  url : String
  statusId : String
deriving DecidableEq

/-- The `appConfigs` array from home.js (lines 15–24). -/
def appConfigs : List AppConfig :=
  [ ⟨"woodboard", "http://localhost:3001", "woodboard-status"⟩,
    ⟨"seafoam", "http://localhost:3000", "seafoam-status"⟩,
    ⟨"tunafork", "http://localhost:3002", "tunafork-status"⟩,
    ⟨"campfire", "http://localhost:3003", "campfire-status"⟩,
    ⟨"slidedeck", "http://localhost:3004", "slidedeck-status"⟩,
    ⟨"logstore", "http://localhost:3005", "logstore-status"⟩,
    ⟨"bytestorm", "http://localhost:3006", "bytestorm-status"⟩,
    ⟨"cerebella", "http://localhost:3007", "cerebella-status"⟩ ]

/-- A polling schedule entry created by `startAppPolling` for one
endpoint: the immediate first check (`update()` is called right away,
at offset 0) and the `setInterval(update, 10000)` re-arm period. -/
structure ScheduleEntry where
  statusId : String
  url : String
  initialAt : Nat
  intervalMs : Nat
deriving DecidableEq

/-- The schedule entry created for a config whose pill element is
present: `update()` runs immediately (offset 0 ms) and then every
10000 ms. It is a function of the config alone — no other endpoint's
state enters. -/
def scheduleFor (c : AppConfig) : ScheduleEntry :=
  ⟨c.statusId, c.url, 0, 10000⟩

/-- `startAppPolling`, embedded over a DOM oracle `pillPresent` telling
whether `document.getElementById(config.statusId)` finds an element.
For each config with a present pill it starts an independent schedule;
configs whose pill is absent are skipped entirely (the `if (pill)`
guard). -/
def startAppPolling (pillPresent : String → Bool) : List ScheduleEntry :=
  appConfigs.filterMap fun c =>
    if pillPresent c.statusId then some (scheduleFor c) else none

/-- Time (ms from startup) of the n-th health check of a schedule
entry: check 0 is the immediate initial check, check n fires after n
interval periods. -/
def checkTime (e : ScheduleEntry) (n : Nat) : Nat :=
  n * e.intervalMs

/-! ## Showroom view toggle (home.js lines 93–108)

JavaScript source (click handler attached to every `.toggle-btn`):
```
const mode = btn.getAttribute('data-mode');
viewToggleBtns.forEach(b => b.classList.remove('active'));
btn.classList.add('active');
if (mode === 'list') \x7b
  demoCollection.classList.add('list-view');
\x7d else \x7b
  demoCollection.classList.remove('list-view');
\x7d
```
-/

/-- One view-toggle button: its `data-mode` attribute and whether it
currently carries the `active` class. -/
structure ToggleBtn where
  mode : String
  active : Bool
deriving DecidableEq

/-- The showroom state the toggle handler can touch, plus an arbitrary
`dnd` component standing for the drag-and-drop delegate's state, which
the handler never reads or writes. `listView` is whether the collection
element carries the `list-view` class. -/
structure ShowroomState (δ : Type) where
  buttons : List ToggleBtn
  listView : Bool
  dnd : δ

/-- The click handler on the i-th toggle button: reads the button's
`data-mode`, removes `active` from every button, adds it to the clicked
one, and sets the collection's `list-view` class exactly when the mode
is `"list"`. An out-of-range index means no button was clicked. -/
def clickToggle {δ : Type} (st : ShowroomState δ) (i : Nat) : ShowroomState δ :=
  match st.buttons.get? i with
  | none => st
  | some btn =>
      let cleared := st.buttons.map fun b => { b with active := false }
      { buttons := cleared.set i { mode := btn.mode, active := true },
        listView := btn.mode == "list",
        dnd := st.dnd }

/-! ## Launcher server (server.js)

JavaScript source, line 10:
```
app.get('/health', (req, res) => res.json(\x7b status: 'OK' \x7d));
```
Express's `res.json` serialises the object and responds with the
default HTTP status 200.
-/

/-- A JSON value, as far as the launcher server produces one. -/
inductive Json
  | str (s : String)
  | obj (fields : List (String × Json))

/-- An HTTP response of the launcher's own server. -/
structure HttpResponse where
  status : Nat
  body : Json

/-- The `GET /health` route handler of server.js:
`res.json` with body `status: "OK"` and the default status 200. -/
def healthHandler : HttpResponse :=
  ⟨200, .obj [("status", .str "OK")]⟩

/-- The launcher server's routing for the routes server.js registers
explicitly (the static-file middleware is an external collaborator per
the design spec): `GET /health` is handled by `healthHandler`, nothing
else matches a registered route. -/
def serverHandle (method : String) (path : String) : Option HttpResponse :=
  if method = "GET" ∧ path = "/health" then some healthHandler else none

/-! ## Pointer Interaction Core (modelled from the spec)

`home.js` imports `attachPanelResizer`, `attachCardBehavior` etc. from
`./components/panel.js`, `./components/card.js`, and the Interaction
Core underneath them; those files are not in the repository snapshot,
so the Core is modelled from spec sections 4.1, 4.2, 5 and 9.
-/

/-- Clamp a value to a closed range, saturating at the boundary
(spec glossary: "constrain a value to a closed range, saturating at the
boundary rather than rejecting"). -/
def clamp (v lo hi : Int) : Int :=
  max lo (min hi v)

/-- Modelled from the spec: the value `attachPanelResizer` commits for a
vertical resize gesture (spec §4.2, `components/panel.js` is missing
from the snapshot). The candidate is the origin-captured size plus the
pointer delta, clamped to the configured bounds
`[minVh, maxVh]` before both `onUpdate` and `onCommit`. -/
def panelResizeCommit (minVh maxVh startVh delta : Int) : Int :=
  clamp (startVh + delta) minVh maxVh

/-- Modelled from the spec: an InteractionSession record (spec §3) —
origin pointer coordinate and origin-captured value of the subject.
The Core module holding it is missing from the snapshot. -/
structure Session where
  originPos : Int
  startValue : Int
deriving DecidableEq

/-- Modelled from the spec: the Core's only shared mutable resource —
the single global active-session slot, plus a counter of sessions
started (spec §5, §9; the Core module is missing from the snapshot). -/
structure CoreState where
  active : Option Session
  sessionsStarted : Nat
deriving DecidableEq

/-- Events the Core's global state reacts to: a pointer-down on a
recognized handle, and the end of the current session (release, cancel
or capture loss). -/
inductive CoreEvent
  | pointerDown (s : Session)
  | endSession
deriving DecidableEq

/-- Modelled from the spec: the Core's session-start guard (spec §4.1,
§9) — a pointer-down while a session is active is a no-op (ignored, not
queued); otherwise it takes the slot and counts one session started.
Session end always clears the slot. -/
def coreStep (st : CoreState) : CoreEvent → CoreState
  | .pointerDown s =>
      match st.active with
      | some _ => st
      | none => ⟨some s, st.sessionsStarted + 1⟩
  | .endSession => ⟨none, st.sessionsStarted⟩

/-- Input events observed by one InteractionSession: a pointer move to
an absolute position, a release (normal completion), or removal of the
subject element from the document (cancellation). -/
inductive SessEvent
  | move (pos : Int)
  | release
  | detach
deriving DecidableEq

/-- A callback invocation the session makes into its caller: a live
`onUpdate` or the final `onCommit`. -/
inductive CallbackCall
  | update (v : Int)
  | commit (v : Int)
deriving DecidableEq

/-- Modelled from the spec: the callback trace of one InteractionSession
(spec §4.1, §5; the Core module is missing from the snapshot). Each move
computes `delta = pos - originPos`, derives the candidate
`startValue + delta`, clamps it, and synchronously invokes `onUpdate`;
release invokes `onCommit` once with the current (last clamped) value
and tears the session down; detachment of the subject cancels the
session without a commit. `cur` is the value the session currently
shows (initially the origin-captured `startValue`). -/
def runSession (lo hi : Int) (s : Session) (cur : Int) :
    List SessEvent → List CallbackCall
  | [] => []
  | .move pos :: rest =>
      let v := clamp (s.startValue + (pos - s.originPos)) lo hi
      .update v :: runSession lo hi s v rest
  | .release :: _ => [.commit cur]
  | .detach :: _ => []

/-- The sequence of clamped candidate values a session computes for a
sequence of move positions, in arrival order. -/
def updateValues (lo hi : Int) (s : Session) : List Int → List Int
  | [] => []
  | pos :: rest =>
      clamp (s.startValue + (pos - s.originPos)) lo hi
        :: updateValues lo hi s rest

/-- The value a session holds after processing a sequence of moves,
starting from `cur`: the last clamped candidate, or `cur` if there was
no move (a zero-move release still commits). -/
def finalValue (lo hi : Int) (s : Session) (cur : Int) : List Int → Int
  | [] => cur
  | pos :: rest =>
      finalValue lo hi s (clamp (s.startValue + (pos - s.originPos)) lo hi) rest

/-- Whether a callback invocation is an `onCommit`. -/
def CallbackCall.isCommit : CallbackCall → Bool
  | .commit _ => true
  | .update _ => false

/-! ## Theorems -/

/-- C1: `ping(url)` resolves to a boolean and never rejects (the Lean
embedding is a total `Bool`-valued function); it resolves `true`
exactly when the response to the health request has a 2xx status, and
`false` for any other status or for a network failure / thrown
exception. -/
theorem ping_true_iff_2xx (network : String → FetchOutcome) (url : JSUrl) :
    (ping network url = true ↔
      ∃ st, network (requestUrl url) = .response st ∧ 200 ≤ st ∧ st ≤ 299) ∧
    (network (requestUrl url) = .failure → ping network url = false) := by
  constructor
  · unfold ping
    cases h : network (requestUrl url) with
    | response st => simp [h]
    | failure => simp [h]
  · intro h
    unfold ping
    rw [h]

/-- C2: the URL `ping` fetches is the base URL with one trailing slash
stripped, concatenated with `/health`; in particular
`ping("http://host:3001/")` requests `http://host:3001/health`, not
`http://host:3001//health`. -/
theorem ping_requests_stripped_health (s : String) :
    requestUrl (.str s) = jsReplaceTrailingSlash s ++ "/health" ∧
    requestUrl (.str "http://host:3001/") = "http://host:3001/health" ∧
    requestUrl (.str "http://host:3001/") ≠ "http://host:3001//health" := by
  refine ⟨?_, by decide, by decide⟩
  by_cases h : s = "" <;> simp [requestUrl, urlOrEmpty, h]

/-- C10: `ping` is total on its argument: `null`, `undefined` and the
empty string are coerced to `''` by `url || ''`, so the request goes to
the relative path `/health`, and the call still resolves to a boolean
(the embedding is a total `Bool`-valued function, so no exception
escapes). -/
theorem ping_total_on_missing_url (network : String → FetchOutcome) :
    requestUrl .null = "/health" ∧
    requestUrl .undefined = "/health" ∧
    requestUrl (.str "") = "/health" ∧
    ping network .null = ping network .undefined ∧
    ping network .null = ping network (.str "") :=
  ⟨rfl, rfl, rfl, rfl, rfl⟩

/-- C6: every tracked endpoint whose pill is present gets one initial
check at startup (offset 0) and re-checks every 10000 ms, with the n-th
check at n·10000 ms; the schedule entry is `scheduleFor c`, a function
of that endpoint's config alone, so no endpoint's check delays
another's. -/
theorem startAppPolling_schedule (pp : String → Bool) (c : AppConfig)
    (hc : c ∈ appConfigs) (hp : pp c.statusId = true) :
    scheduleFor c ∈ startAppPolling pp ∧
    (scheduleFor c).initialAt = 0 ∧
    (scheduleFor c).intervalMs = 10000 ∧
    (∀ n, checkTime (scheduleFor c) n = n * 10000) := by
  refine ⟨?_, rfl, rfl, fun n => rfl⟩
  unfold startAppPolling
  exact List.mem_filterMap.mpr ⟨c, hc, by simp [hp]⟩

/-- Witness for C6: with every pill present, the woodboard endpoint is
scheduled with its initial check at offset 0 and a 10000 ms interval. -/
theorem startAppPolling_schedule_witness :
    scheduleFor ⟨"woodboard", "http://localhost:3001", "woodboard-status"⟩ ∈
      startAppPolling (fun _ => true) :=
  (startAppPolling_schedule (fun _ => true)
    ⟨"woodboard", "http://localhost:3001", "woodboard-status"⟩
    (by decide) rfl).1

/-- C9: an endpoint whose status-pill element is absent at startup is
never polled: no schedule entry (neither the initial ping nor the
10-second interval) carries its status id, so only endpoints with a
present pill are ever checked. -/
theorem startAppPolling_skips_absent_pill (pp : String → Bool) (c : AppConfig)
    (_hc : c ∈ appConfigs) (hp : pp c.statusId = false) :
    ∀ e ∈ startAppPolling pp, e.statusId ≠ c.statusId := by
  intro e he
  unfold startAppPolling at he
  obtain ⟨c', _, hfc⟩ := List.mem_filterMap.mp he
  by_cases h : pp c'.statusId = true
  · simp only [h, if_true, Option.some.injEq] at hfc
    intro heq
    rw [← hfc] at heq
    rw [show (scheduleFor c').statusId = c'.statusId from rfl] at heq
    rw [heq, hp] at h
    exact Bool.false_ne_true h
  · simp [h] at hfc

/-- Witness for C9: with the woodboard pill absent (and all others
present), the seafoam schedule entry does not poll woodboard. -/
theorem startAppPolling_skips_absent_pill_witness :
    (scheduleFor ⟨"seafoam", "http://localhost:3000", "seafoam-status"⟩).statusId ≠
      ("woodboard-status" : String) :=
  startAppPolling_skips_absent_pill
    (fun s => !(s == "woodboard-status"))
    ⟨"woodboard", "http://localhost:3001", "woodboard-status"⟩
    (by decide) (by decide)
    (scheduleFor ⟨"seafoam", "http://localhost:3000", "seafoam-status"⟩)
    (by decide)

/-- C7: after a click on the i-th view-toggle button, the presentation
is a function of that click alone: button j carries `active` exactly
when j = i (so exactly one button is active), the collection is in
list view exactly when the clicked button's mode is `"list"` (grid
otherwise — two mutually exclusive presentations), and the
drag-and-drop state is untouched. -/
theorem clickToggle_pure_presentation {δ : Type} (st : ShowroomState δ)
    (i : Nat) (hi : i < st.buttons.length) :
    (clickToggle st i).buttons.length = st.buttons.length ∧
    (∀ j, ∀ hj : j < (clickToggle st i).buttons.length,
        ((clickToggle st i).buttons.get ⟨j, hj⟩).active = (j == i)) ∧
    (clickToggle st i).listView = ((st.buttons.get ⟨i, hi⟩).mode == "list") ∧
    (clickToggle st i).dnd = st.dnd := by
  have hbtn : st.buttons.get? i = some (st.buttons.get ⟨i, hi⟩) := by
    simp [List.get?_eq_getElem?, List.getElem?_eq_getElem hi]
  unfold clickToggle
  rw [hbtn]
  refine ⟨by simp, ?_, rfl, rfl⟩
  intro j hj
  simp only [List.length_set, List.length_map] at hj
  simp only [List.get_eq_getElem]
  rcases eq_or_ne i j with h | h
  · subst h
    simp [List.getElem_set]
  · rw [List.getElem_set_ne h, List.getElem_map]
    simp [Ne.symm h]

/-- Witness for C7: clicking the `"list"` button (index 1) of a
two-button toggle switches the collection to list view and leaves the
drag-and-drop state (here the marker value 7) unchanged. -/
theorem clickToggle_pure_presentation_witness :
    (clickToggle (⟨[⟨"grid", true⟩, ⟨"list", false⟩], false, (7 : Nat)⟩ :
        ShowroomState Nat) 1).listView = true ∧
    (clickToggle (⟨[⟨"grid", true⟩, ⟨"list", false⟩], false, (7 : Nat)⟩ :
        ShowroomState Nat) 1).dnd = 7 := by
  have h := clickToggle_pure_presentation
    (⟨[⟨"grid", true⟩, ⟨"list", false⟩], false, (7 : Nat)⟩ : ShowroomState Nat)
    1 (by decide)
  exact ⟨h.2.2.1.trans (by decide), h.2.2.2⟩

/-- C8: the launcher server answers `GET /health` with HTTP 200 and the
JSON body with the single field `status` equal to `"OK"`. -/
theorem server_health_route_ok :
    serverHandle "GET" "/health" = some healthHandler ∧
    healthHandler.status = 200 ∧
    healthHandler.body = .obj [("status", .str "OK")] := by
  refine ⟨?_, rfl, rfl⟩
  unfold serverHandle
  simp

/-- C3: for every resize gesture the committed value lies in
`[minExtent, maxExtent]` even when the raw delta would leave it, and in
the showroom wiring (`minVh = 18`, `maxVh = 60`, home.js lines 64–71)
starting at 30vh and dragging by +50vh commits exactly 60vh. -/
theorem panelResizeCommit_clamped :
    (∀ minVh maxVh startVh delta : Int, minVh ≤ maxVh →
        minVh ≤ panelResizeCommit minVh maxVh startVh delta ∧
        panelResizeCommit minVh maxVh startVh delta ≤ maxVh) ∧
    panelResizeCommit 18 60 30 50 = 60 := by
  refine ⟨?_, by decide⟩
  intro lo hi sv d h
  unfold panelResizeCommit clamp
  exact ⟨le_max_left _ _, max_le h (min_le_left _ _)⟩

/-- Witness for C3: at the showroom bounds 18–60, the commit for a
+50vh drag from 30vh lies within the bounds. -/
theorem panelResizeCommit_clamped_witness :
    (18 : Int) ≤ panelResizeCommit 18 60 30 50 ∧
    panelResizeCommit 18 60 30 50 ≤ 60 :=
  panelResizeCommit_clamped.1 18 60 30 50 (by decide)

/-- C4: at most one InteractionSession is active at a time (the Core
state holds a single `Option Session` slot); a pointer-down arriving
while a session is active is ignored — the state, including the
sessions-started counter, is unchanged, so no second session starts
until the current one ends. -/
theorem pointerDown_ignored_while_active (st : CoreState) (s₀ s : Session)
    (h : st.active = some s₀) :
    coreStep st (.pointerDown s) = st ∧
    (coreStep st (.pointerDown s)).sessionsStarted = st.sessionsStarted := by
  have : coreStep st (.pointerDown s) = st := by
    unfold coreStep
    rw [h]
  exact ⟨this, by rw [this]⟩

/-- Witness for C4: with a session active (one session started so far),
a second pointer-down leaves the Core state untouched. -/
theorem pointerDown_ignored_while_active_witness :
    coreStep ⟨some ⟨0, 30⟩, 1⟩ (.pointerDown ⟨5, 5⟩) = ⟨some ⟨0, 30⟩, 1⟩ :=
  (pointerDown_ignored_while_active ⟨some ⟨0, 30⟩, 1⟩ ⟨0, 30⟩ ⟨5, 5⟩ rfl).1

/-- Every callback a move sequence produces is an update: the mapped
update list contains no commit. -/
theorem countP_isCommit_map_update (vs : List Int) :
    (vs.map CallbackCall.update).countP (CallbackCall.isCommit ·) = 0 := by
  induction vs with
  | nil => rfl
  | cons v rest ih => simp [List.countP_cons, ih, CallbackCall.isCommit]

/-- A session trace ending in release: every move emits its update in
arrival order, then the single commit with the final value. -/
theorem runSession_release_eq (lo hi : Int) (s : Session) (cur : Int)
    (moves : List Int) :
    runSession lo hi s cur (moves.map .move ++ [.release])
      = (updateValues lo hi s moves).map .update
          ++ [.commit (finalValue lo hi s cur moves)] := by
  induction moves generalizing cur with
  | nil => rfl
  | cons p rest ih =>
      simp only [List.map_cons, List.cons_append, runSession, updateValues,
        finalValue]
      exact congrArg (List.cons _) (ih _)

/-- A session trace ending in subject detachment: the updates are
emitted in arrival order and no commit ever fires. -/
theorem runSession_detach_eq (lo hi : Int) (s : Session) (cur : Int)
    (moves : List Int) :
    runSession lo hi s cur (moves.map .move ++ [.detach])
      = (updateValues lo hi s moves).map .update := by
  induction moves generalizing cur with
  | nil => rfl
  | cons p rest ih =>
      simp only [List.map_cons, List.cons_append, runSession, updateValues]
      exact congrArg (List.cons _) (ih _)

/-- C5: a normally completing session fires `onCommit` exactly once,
strictly after the last `onUpdate`, with the updates ordered by
input-event arrival (the trace is exactly the per-move update values in
order followed by the single commit); a session cancelled by removal of
the subject element fires zero commits. -/
theorem session_commit_discipline (lo hi : Int) (s : Session) (cur : Int)
    (moves : List Int) :
    runSession lo hi s cur (moves.map .move ++ [.release])
      = (updateValues lo hi s moves).map .update
          ++ [.commit (finalValue lo hi s cur moves)] ∧
    (runSession lo hi s cur (moves.map .move ++ [.release])).countP
        (CallbackCall.isCommit ·) = 1 ∧
    runSession lo hi s cur (moves.map .move ++ [.detach])
      = (updateValues lo hi s moves).map .update ∧
    (runSession lo hi s cur (moves.map .move ++ [.detach])).countP
        (CallbackCall.isCommit ·) = 0 := by
  refine ⟨runSession_release_eq lo hi s cur moves, ?_,
    runSession_detach_eq lo hi s cur moves, ?_⟩
  · rw [runSession_release_eq]
    simp [List.countP_append, countP_isCommit_map_update,
      List.countP_cons, CallbackCall.isCommit]
  · rw [runSession_detach_eq]
    exact countP_isCommit_map_update _

end GalapagOS
